import Mathlib

/-!
Shallow embedding of the record-store synchronizer in src/app_finance.py and
proofs of the specified properties: the partition-replace update and delete
handlers of the detail-management tab, the search-filter precondition, the
total-recomputation rule, the read cache around load_data, the project rename
propagation, the error handling of the backend calls, the settings migration
on load, and the percentage guard of the report generator.
-/

/-- Calendar date (the 日期 column). The 月份 and Year columns of the loaded
dataframe are derived from it on load and dropped again before persistence. -/
structure YMDate where
  year : Nat
  month : Nat
  day : Nat
deriving DecidableEq, Repr

/-- One ledger row: the thirteen persisted columns of the data table
(日期, 專案, 類別, 項目內容, 單位, 數量, 單價, 總價, 購買地點, 經手人,
憑證類型, 發票號碼, 備註). -/
structure Record where
  date : YMDate
  proj : String
  cat : String
  item : String
  unit : String
  qty : ℚ
  price : ℚ
  total : ℚ
  location : String
  handler : String
  voucher : String
  invoice : String
  note : String
deriving DecidableEq, Repr

/-- A row of the data editor in tab_data: the record columns plus the 刪除
checkbox and the derived 星期/節日 label column; both extra columns are
stripped before persistence. -/
structure EditedRow where
  row : Record
  marked : Bool
  weekday : String
deriving DecidableEq, Repr

/-- The structural selection mask of tab_data (lines 554-555 and 584-585):
專案 equals the current project, 類別 equals the category key, Year equals the
selected year, and, when a month is selected, 月份 equals it. -/
def matchesSel (P C : String) (Y : Nat) (M : Option Nat) (r : Record) : Bool :=
  r.proj == P && r.cat == C && r.date.year == Y &&
    (match M with
     | none => true
     | some m => r.date.month == m)

/-- Per-row processing applied to every edited row before persistence
(lines 549-552 of the update handler, 587-589 of the delete handler):
總價 is recomputed as 數量 * 單價 and the 類別 and 專案 fields are forced back
to the values of the selection. The 刪除 and 星期/節日 columns disappear
because the output is a plain Record. -/
def recompute (P C : String) (e : EditedRow) : Record :=
  { e.row with total := e.row.qty * e.row.price, cat := C, proj := P }

/-- Body of the submit_update handler (lines 547-558): rows of the full table
outside the mask are kept, every edited row is recomputed, and the two parts
are concatenated. The 刪除 marks are ignored here: only the column is dropped,
marked rows are not removed. -/
def submit_update (full : List Record) (P C : String) (Y : Nat) (M : Option Nat)
    (edited : List EditedRow) : List Record :=
  full.filter (fun r => !(matchesSel P C Y M r)) ++ edited.map (recompute P C)

/-- Body of the delete-confirm handler (lines 577-591): rows whose 刪除 box is
checked are dropped from the pending edited subset, then the remaining rows are
recomputed and concatenated after the kept rows, as in submit_update. -/
def confirm_delete (full : List Record) (P C : String) (Y : Nat) (M : Option Nat)
    (pending : List EditedRow) : List Record :=
  full.filter (fun r => !(matchesSel P C Y M r)) ++
    (pending.filter (fun e => !e.marked)).map (recompute P C)

/-- Outcome of one submit_update interaction: the resulting backing store
content, the message shown to the user, and whether a whole-table replace was
issued. -/
structure SubmitResult where
  store : List Record
  message : Option String
  replaceIssued : Bool
deriving DecidableEq, Repr

/-- The submit_update handler including its precondition check (lines 544-558):
a nonempty search keyword aborts the interaction with an error message and no
replace; otherwise the partition-replace result is persisted. -/
def submit_update_handler (searchKw : String) (full : List Record) (P C : String)
    (Y : Nat) (M : Option Nat) (edited : List EditedRow) : SubmitResult :=
  if searchKw ≠ "" then
    { store := full, message := some "搜尋模式下無法存檔！", replaceIssued := false }
  else
    { store := submit_update full P C Y M edited,
      message := some "更新成功！", replaceIssued := true }

/-- Outcome of one submit_delete interaction: the store is never written here;
the handler either warns, refuses, or stashes the edited subset for the
confirmation step. -/
structure DeleteSubmitResult where
  store : List Record
  message : Option String
  pending : Option (List EditedRow)
deriving DecidableEq, Repr

/-- The submit_delete handler (lines 561-570): nothing marked gives a warning,
an active search keyword gives an error, otherwise the edited subset is stored
in the session state and the confirmation box is opened. Only the confirmation
step issues a replace. -/
def submit_delete_handler (searchKw : String) (full : List Record)
    (edited : List EditedRow) : DeleteSubmitResult :=
  if !(edited.any (fun e => e.marked)) then
    { store := full, message := some "請先勾選要刪除的項目", pending := none }
  else if searchKw ≠ "" then
    { store := full, message := some "搜尋模式下無法執行刪除", pending := none }
  else
    { store := full, message := none, pending := some edited }

/-- Execution mode decided by check_mode (lines 43-50). -/
inductive Mode where
  | cloud
  | localMode
deriving DecidableEq, Repr

/-- The backing store together with the st.cache_data cache in front of
load_data: cache = some v means a warm entry inside its time-to-live. -/
structure SysState where
  store : List Record
  cache : Option (List Record)
deriving DecidableEq, Repr

/-- load_data behind st.cache_data (lines 87-129): a warm cache entry is
returned as-is; a cold call reads the store and fills the cache. -/
def load_data (s : SysState) : List Record × SysState :=
  match s.cache with
  | some v => (v, s)
  | none => (s.store, { s with cache := some s.store })

/-- save_dataframe (lines 131-150): whole-table replace. The cloud branch
clears the sheet, uploads the new table and calls load_data.clear(); the local
branch writes the csv and returns without touching the cache. -/
def save_dataframe (mode : Mode) (s : SysState) (df : List Record) : SysState :=
  match mode with
  | Mode.cloud => { store := df, cache := none }
  | Mode.localMode => { store := df, cache := s.cache }

/-- append_record (lines 212-234): the cloud branch appends one row and calls
load_data.clear(); the local branch reads the current table through load_data
(hence through the cache) and saves the concatenation via save_dataframe. -/
def append_record (mode : Mode) (s : SysState) (r : Record) : SysState :=
  match mode with
  | Mode.cloud => { store := s.store ++ [r], cache := none }
  | Mode.localMode =>
      let rs := load_data s
      save_dataframe Mode.localMode rs.2 (rs.1 ++ [r])

/-- Python dict assignment d[k] = v over a string-keyed dict: overwrite in
place when the key exists, append otherwise. Keys stay unique. -/
def dinsert {α : Type} : List (String × α) → String → α → List (String × α)
  | [], k, v => [(k, v)]
  | (k0, v0) :: rest, k, v =>
    if k0 = k then (k, v) :: rest else (k0, v0) :: dinsert rest k v

/-- Python dict lookup d.get(k) over a dict with unique keys. -/
def dget {α : Type} : List (String × α) → String → Option α
  | [], _ => none
  | (k0, v0) :: rest, k => if k0 = k then some v0 else dget rest k

/-- Python dict.pop(k): the popped value together with the dict without the
key; none models the KeyError raised on a missing key. -/
def dpop {α : Type} (m : List (String × α)) (k : String) :
    Option (α × List (String × α)) :=
  match dget m k with
  | none => none
  | some v => some (v, m.filter (fun e => !(e.1 == k)))

/-- One entry of a cat_config list: key, display label and type tag. -/
structure CatEntry where
  key : String
  display : String
  ctype : String
deriving DecidableEq, Repr

/-- DEFAULT_CAT_CONFIG (lines 62-70). -/
def DEFAULT_CAT_CONFIG : List CatEntry :=
  [⟨"入帳金額", "01. 入帳金額 (零用金)", "income"⟩,
   ⟨"施工耗材", "02. 施工耗材", "expense"⟩,
   ⟨"工具設備", "03. 施工工具及設備", "expense"⟩,
   ⟨"雜貨類", "04. 雜貨類", "expense"⟩,
   ⟨"交通費", "05. 交通費 (含油資)", "expense"⟩,
   ⟨"維修費", "06. 工具設備維修費", "expense"⟩,
   ⟨"五金雜貨", "07. 五金雜貨", "expense"⟩]

/-- Default item detail: {"price": …, "unit": …}. -/
structure ItemDetail where
  price : ℚ
  unit : String
deriving DecidableEq, Repr

/-- The in-memory settings object as the tab_settings handlers use it, after
load_settings has normalized it: per-project maps for items, locations,
cat_config and item_details. -/
structure AppSettings where
  projects : List String
  items : List (String × List (String × List String))
  locations : List (String × List (String × List String))
  cat_config : List (String × List CatEntry)
  item_details : List (String × List (String × ItemDetail))
deriving DecidableEq, Repr

/-- The form_ren_project handler (lines 704-714): the projects list is mapped
old-to-new, the per-project maps are re-keyed with dict.pop and re-insertion
(item_details only when the old key is present), the settings are saved, and
every record whose 專案 equals the old name is rewritten before a whole-table
replace. Returns none when the handler does nothing (empty or unchanged new
name) or a .pop would raise KeyError. -/
def form_ren_project (s : AppSettings) (df : List Record) (old new : String) :
    Option (AppSettings × List Record) :=
  if new = "" ∨ new = old then none
  else
    match dpop s.items old, dpop s.locations old, dpop s.cat_config old with
    | some iv, some lv, some cv =>
      let idet :=
        match dpop s.item_details old with
        | some dv => dinsert dv.2 new dv.1
        | none => s.item_details
      some ({ projects := s.projects.map (fun p => if p = old then new else p),
              items := dinsert iv.2 new iv.1,
              locations := dinsert lv.2 new lv.1,
              cat_config := dinsert cv.2 new cv.1,
              item_details := idet },
            df.map (fun r => if r.proj = old then { r with proj := new } else r))
    | _, _, _ => none

/-- Shape of the cat_config value found in a deserialized settings blob: the
old flat list, the per-project dict, or anything else (a missing key behaves
like the anything-else case in both isinstance tests). -/
inductive CatCfgVal where
  | flat (l : List CatEntry)
  | perProj (m : List (String × List CatEntry))
  | other
deriving DecidableEq, Repr

/-- A deserialized settings blob as load_settings receives it: the projects
key may be absent, cat_config may have any of the three shapes, and the
item_details key may be absent. -/
structure SettingsBlob where
  projects : Option (List String)
  cat_config : CatCfgVal
  item_details : Option (List (String × List (String × ItemDetail)))
deriving DecidableEq, Repr

/-- The in-code default settings value (lines 153-159): one default project
and the flat DEFAULT_CAT_CONFIG list. -/
def defaultBlob : SettingsBlob :=
  { projects := some ["預設專案"],
    cat_config := CatCfgVal.flat DEFAULT_CAT_CONFIG,
    item_details := some [] }

/-- The projects list after step 1 of the normalization (line 176): the list
from the blob, or the default when the key is absent. -/
def projListOf (b : SettingsBlob) : List String :=
  match b.projects with
  | some ps => ps
  | none => ["預設專案"]

/-- The migration part of load_settings (lines 174-197). Step 2 turns a flat
cat_config list into a per-project dict giving every project a deep copy of
the flat list; step 3 fills a missing entry of a dict-shaped cat_config with a
deep copy of DEFAULT_CAT_CONFIG, and resets any other shape to a dict mapping
every project to a deep copy of DEFAULT_CAT_CONFIG; finally a missing
item_details key is given an empty dict. -/
def normalizeSettings (b : SettingsBlob) : SettingsBlob :=
  let projects := projListOf b
  let cc1 := match b.cat_config with
    | CatCfgVal.flat l =>
        CatCfgVal.perProj (projects.foldl (fun m p => dinsert m p l) [])
    | x => x
  let cc2 := match cc1 with
    | CatCfgVal.perProj m =>
        CatCfgVal.perProj (projects.foldl
          (fun m0 p =>
            if (dget m0 p).isSome then m0 else dinsert m0 p DEFAULT_CAT_CONFIG) m)
    | _ =>
        CatCfgVal.perProj
          (projects.foldl (fun m0 p => dinsert m0 p DEFAULT_CAT_CONFIG) [])
  { projects := some projects, cat_config := cc2,
    item_details := some (match b.item_details with | some d => d | none => []) }

/-- Lookup of one project entry inside a cat_config value. -/
def ccLookup : CatCfgVal → String → Option (List CatEntry)
  | CatCfgVal.perProj m, p => dget m p
  | _, _ => none

/-- Whether a cat_config value has the dict shape. -/
def isDictCC : CatCfgVal → Bool
  | CatCfgVal.perProj _ => true
  | _ => false

/-- Result of running one backend operation once: result carries the value or
the exception escaping to the top level, notice a visible st.error or st.toast
message, and storeCalls the number of backing-store calls attempted. -/
structure OpRun (α : Type) where
  result : Except String α
  notice : Option String
  storeCalls : Nat
deriving Repr

/-- load_settings (lines 152-198) with an error-injection flag for the
backing-store read. The cloud branch wraps the read in try/except pass and
falls back to the defaults; the local branch reads the settings file with no
try/except, so a failing read escapes as an exception. A missing local file
skips the read. Both tails run the normalization. -/
def load_settingsOp (mode : Mode) (fails : Bool) (stored : Option SettingsBlob) :
    OpRun SettingsBlob :=
  match mode with
  | Mode.cloud =>
    if fails then
      { result := Except.ok (normalizeSettings defaultBlob),
        notice := none, storeCalls := 1 }
    else
      { result := Except.ok (normalizeSettings
          (match stored with | some b => b | none => defaultBlob)),
        notice := none, storeCalls := 1 }
  | Mode.localMode =>
    match stored with
    | some b =>
      if fails then
        { result := Except.error "IOError", notice := none, storeCalls := 1 }
      else
        { result := Except.ok (normalizeSettings b), notice := none, storeCalls := 1 }
    | none =>
      { result := Except.ok (normalizeSettings defaultBlob),
        notice := none, storeCalls := 0 }

/-- save_settings (lines 200-210) with an error-injection flag. The cloud
branch swallows any error with try/except pass and shows nothing; the local
branch writes the file with no try/except, so a failing write escapes. -/
def save_settingsOp (mode : Mode) (fails : Bool) : OpRun Unit :=
  match mode with
  | Mode.cloud =>
    { result := Except.ok (), notice := none, storeCalls := 1 }
  | Mode.localMode =>
    if fails then
      { result := Except.error "IOError", notice := none, storeCalls := 1 }
    else
      { result := Except.ok (), notice := none, storeCalls := 1 }

/-- save_dataframe (lines 131-150) viewed as a fallible call: the whole body
is inside try/except, a failure shows a visible error and returns False. The
same behaviour in both modes. -/
def save_dataframeOp (mode : Mode) (fails : Bool) : OpRun Bool :=
  match mode, fails with
  | _, true => { result := Except.ok false, notice := some "儲存失敗", storeCalls := 1 }
  | _, false => { result := Except.ok true, notice := none, storeCalls := 1 }

/-- append_record (lines 212-234) viewed as a fallible call: the cloud branch
catches its own write error and shows a visible message; the local branch
reads the current table and goes through save_dataframe. -/
def append_recordOp (mode : Mode) (fails : Bool) : OpRun Bool :=
  match mode with
  | Mode.cloud =>
    if fails then
      { result := Except.ok false, notice := some "雲端寫入錯誤", storeCalls := 1 }
    else
      { result := Except.ok true, notice := none, storeCalls := 1 }
  | Mode.localMode =>
    let sv := save_dataframeOp Mode.localMode fails
    { result := sv.result, notice := sv.notice, storeCalls := 1 + sv.storeCalls }

/-- References into a heap of category-config lists, modelling Python object
identity for the copy.deepcopy calls of the migration (lines 179-183): each
project receives a freshly allocated copy. Assignment order follows the loop,
so a later assignment to the same key overwrites an earlier one. -/
def allocRefs : List String → Nat → List (String × Nat)
  | [], _ => []
  | p :: rest, base => (p, base) :: allocRefs rest (base + 1)

/-- Dict lookup where the last assignment wins, as in the Python loop. -/
def refLookup : List (String × Nat) → String → Option Nat
  | [], _ => none
  | (k, v) :: rest, p =>
    match refLookup rest p with
    | some w => some w
    | none => if k = p then some v else none

/-- The migrated cat_config of lines 179-183 with explicit object identity:
a dict from project to reference, and a heap holding one independently
allocated copy of the old flat list per project. -/
structure MigratedCC where
  refs : List (String × Nat)
  heap : List (List CatEntry)
deriving Repr

/-- Migration of the old flat cat_config list (lines 179-183): every project
in the projects list is assigned a fresh deep copy of the old list. -/
def migrateFlatHeap (projects : List String) (old : List CatEntry) : MigratedCC :=
  { refs := allocRefs projects 0, heap := List.replicate projects.length old }

/-- The category list a project currently sees through its reference. -/
def ccValue (st : MigratedCC) (p : String) : Option (List CatEntry) :=
  (refLookup st.refs p).bind (fun r => st.heap[r]?)

/-- In-place mutation of the list object one project references. -/
def ccMutate (st : MigratedCC) (p : String) (v : List CatEntry) : MigratedCC :=
  match refLookup st.refs p with
  | some r => { st with heap := st.heap.set r v }
  | none => st

/-- Total expense of the report subset (line 323): sum of 總價 over the rows
whose 類別 is not 入帳金額. -/
def rpt_exp (df : List Record) : ℚ :=
  ((df.filter (fun r => !(r.cat == "入帳金額"))).map (fun r => r.total)).sum

/-- Per-category sum of the expense breakdown (the groupby of line 332). -/
def cat_exp_sum (df : List Record) (c : String) : ℚ :=
  ((df.filter (fun r => !(r.cat == "入帳金額") && r.cat == c)).map
    (fun r => r.total)).sum

/-- Percentage-of-total of one category row of the report (line 336): the
quotient times 100 when the total expense is positive, otherwise 0. -/
def cat_pct (df : List Record) (c : String) : ℚ :=
  if 0 < rpt_exp df then cat_exp_sum df c / rpt_exp df * 100 else 0

/-- Sample date used by the concrete instances below. -/
def dA : YMDate := ⟨2025, 1, 5⟩

/-- A record of project A, category c, with 總價 consistent with 數量 * 單價. -/
def rA : Record :=
  { date := dA, proj := "A", cat := "c", item := "i", unit := "式",
    qty := 2, price := 3, total := 6, location := "", handler := "",
    voucher := "收據", invoice := "", note := "" }

/-- A record of another project, left untouched by selections on project A. -/
def rB : Record := { rA with proj := "B", item := "other" }

/-- A record whose stored 總價 disagrees with 數量 * 單價. -/
def rBad : Record := { rA with total := 999 }

/-- rA wrapped as an unmarked editor row. -/
def eKeep : EditedRow := { row := rA, marked := false, weekday := "(週日)" }

/-- rA wrapped as an editor row marked for deletion. -/
def eDel : EditedRow := { row := rA, marked := true, weekday := "(週日)" }

/-- rBad wrapped as an unmarked editor row. -/
def eBad : EditedRow := { row := rBad, marked := false, weekday := "(週日)" }

/-- C3: whenever the free-text search keyword is nonempty, the update handler
and the delete handler both leave the backing store unchanged, show a
user-facing message, and issue no replace (the delete handler does not even
open the confirmation step). -/
theorem c3_search_filter_refusal (searchKw : String) (full : List Record)
    (P C : String) (Y : Nat) (M : Option Nat) (edited : List EditedRow)
    (h : searchKw ≠ "") :
    (submit_update_handler searchKw full P C Y M edited).store = full ∧
    (submit_update_handler searchKw full P C Y M edited).replaceIssued = false ∧
    (submit_update_handler searchKw full P C Y M edited).message.isSome = true ∧
    (submit_delete_handler searchKw full edited).store = full ∧
    (submit_delete_handler searchKw full edited).pending = none ∧
    (submit_delete_handler searchKw full edited).message.isSome = true := by
  unfold submit_update_handler submit_delete_handler
  cases hAny : edited.any (fun e => e.marked) <;> simp [h, hAny]

/-- C3 witness: a concrete refusal with an active search keyword. -/
theorem c3_witness :
    (submit_update_handler "水泥" [rA] "A" "c" 2025 none [eKeep]).store = [rA] ∧
      (submit_delete_handler "水泥" [rA] [eDel]).pending = none := by
  have h := c3_search_filter_refusal "水泥" [rA] "A" "c" 2025 none [eDel] (by decide)
  have h2 := c3_search_filter_refusal "水泥" [rA] "A" "c" 2025 none [eKeep] (by decide)
  exact ⟨h2.1, h.2.2.2.2.1⟩

/-- C4: every row of the persisted result of either the update or the
delete-confirm operation is a kept row outside the selection, present
unchanged in the original set, or carries 總價 = 數量 * 單價. In particular
every row coming from the edited subset has its total recomputed. -/
theorem c4_total_recomputed (full : List Record) (P C : String) (Y : Nat)
    (M : Option Nat) (edited pending : List EditedRow) :
    (∀ r ∈ submit_update full P C Y M edited,
        (r ∈ full ∧ matchesSel P C Y M r = false) ∨ r.total = r.qty * r.price) ∧
    (∀ r ∈ confirm_delete full P C Y M pending,
        (r ∈ full ∧ matchesSel P C Y M r = false) ∨ r.total = r.qty * r.price) := by
  constructor
  · intro r hr
    unfold submit_update at hr
    rcases List.mem_append.mp hr with hk | ha
    · have hm := List.mem_filter.mp hk
      exact Or.inl ⟨hm.1, by simpa using hm.2⟩
    · rcases List.mem_map.mp ha with ⟨e, _, rfl⟩
      exact Or.inr rfl
  · intro r hr
    unfold confirm_delete at hr
    rcases List.mem_append.mp hr with hk | ha
    · have hm := List.mem_filter.mp hk
      exact Or.inl ⟨hm.1, by simpa using hm.2⟩
    · rcases List.mem_map.mp ha with ⟨e, _, rfl⟩
      exact Or.inr rfl

/-- C4 witness: the row produced from the edited subset by a concrete update
run satisfies the recomputation disjunction. -/
theorem c4_witness :
    (recompute "A" "c" eKeep ∈ [rB] ∧
        matchesSel "A" "c" 2025 none (recompute "A" "c" eKeep) = false) ∨
      (recompute "A" "c" eKeep).total =
        (recompute "A" "c" eKeep).qty * (recompute "A" "c" eKeep).price :=
  (c4_total_recomputed [rB] "A" "c" 2025 none [eKeep] []).1
    (recompute "A" "c" eKeep)
    (by
      rw [show submit_update [rB] "A" "c" 2025 none [eKeep] =
            [rB, recompute "A" "c" eKeep] from rfl]
      exact List.mem_cons_of_mem _ (List.mem_singleton.mpr rfl))

/-- C5: at the failing input - local mode, a warm cache holding the pre-write
table, a whole-table replace through save_dataframe - the cache entry is not
invalidated, so the next load_data still returns the pre-write table instead
of the just-written one; the cloud branch of the same call does invalidate,
and the local branch of append_record inherits the same stale cache. -/
theorem c5_local_cache_not_invalidated :
    (save_dataframe Mode.localMode ⟨[rA], some [rA]⟩ [rA, rB]).cache = some [rA] ∧
    (load_data (save_dataframe Mode.localMode ⟨[rA], some [rA]⟩ [rA, rB])).1 = [rA] ∧
    (save_dataframe Mode.localMode ⟨[rA], some [rA]⟩ [rA, rB]).store = [rA, rB] ∧
    [rA] ≠ [rA, rB] ∧
    (save_dataframe Mode.cloud ⟨[rA], some [rA]⟩ [rA, rB]).cache = none ∧
    (append_record Mode.localMode ⟨[rA], some [rA]⟩ rB).cache = some [rA] := by
  refine ⟨rfl, rfl, rfl, ?_, rfl, rfl⟩
  decide

/-- C9: in the expense breakdown of the report, every percentage figure is 0
when the total expense over the input subset is 0, and a nonzero percentage
can only arise with a strictly positive total expense, so the division of
line 336 is only ever applied to a nonzero divisor. -/
theorem c9_pct_zero_guard (df : List Record) :
    (rpt_exp df = 0 → ∀ c, cat_pct df c = 0) ∧
    (∀ c, cat_pct df c ≠ 0 → 0 < rpt_exp df) := by
  constructor
  · intro h c
    unfold cat_pct
    rw [h]
    simp
  · intro c h
    unfold cat_pct at h
    by_cases h0 : 0 < rpt_exp df
    · exact h0
    · simp [h0] at h

/-- C9 witness: the percentage of a concrete category over a subset with zero
total expense evaluates to 0. -/
theorem c9_witness : cat_pct [] "施工耗材" = 0 :=
  (c9_pct_zero_guard []).1 rfl "施工耗材"

/-- C1 counterexample: with one matching record and an edited subset whose only
row is marked for deletion, the claimed result (S minus target, plus surviving
edited rows) is empty, but the update operation keeps the marked row - the
submit_update handler ignores deletion marks, it only drops the 刪除 column. -/
theorem c1_counterexample :
    ([rA].filter (fun r => !(matchesSel "A" "c" 2025 none r)) ++
        ([eDel].filter (fun e => !e.marked)).map (recompute "A" "c")) = [] ∧
      submit_update [rA] "A" "c" 2025 none [eDel] ≠ [] := by
  constructor
  · rfl
  · rw [show submit_update [rA] "A" "c" 2025 none [eDel] =
        [recompute "A" "c" eDel] from rfl]
    simp

/-- C1 (amended): the delete-confirm operation produces exactly the kept rows
(records of S outside the selection, unchanged) followed by the surviving
edited rows with 總價 recomputed and 類別/專案 forced; every record of S not
matching the selection appears unchanged in the result; and the size of the
result is |S| minus |target| plus the number of surviving edited rows. The
update operation instead keeps all edited rows, deletion marks ignored. -/
theorem c1_partition_replace (full : List Record) (P C : String) (Y : Nat)
    (M : Option Nat) (edited pending : List EditedRow) :
    confirm_delete full P C Y M pending =
        full.filter (fun r => !(matchesSel P C Y M r)) ++
          (pending.filter (fun e => !e.marked)).map (recompute P C) ∧
      submit_update full P C Y M edited =
        full.filter (fun r => !(matchesSel P C Y M r)) ++
          edited.map (recompute P C) ∧
      (∀ r ∈ full, matchesSel P C Y M r = false →
        r ∈ confirm_delete full P C Y M pending) ∧
      (confirm_delete full P C Y M pending).length =
        full.length - (full.filter (fun r => matchesSel P C Y M r)).length +
          (pending.filter (fun e => !e.marked)).length := by
  refine ⟨rfl, rfl, ?_, ?_⟩
  · intro r hr hm
    unfold confirm_delete
    exact List.mem_append_left _ (List.mem_filter.mpr ⟨hr, by simp [hm]⟩)
  · have hpart :=
      (List.filter_append_perm (fun r => matchesSel P C Y M r) full).length_eq
    rw [List.length_append] at hpart
    unfold confirm_delete
    rw [List.length_append, List.length_map]
    omega

/-- C1 witness: in a concrete delete run, the record of the other project is
untouched and present in the result. -/
theorem c1_witness : rB ∈ confirm_delete [rA, rB] "A" "c" 2025 none [eDel] :=
  (c1_partition_replace [rA, rB] "A" "c" 2025 none [] [eDel]).2.2.1 rB
    (by simp) (by decide)

/-- C2 counterexample: a no-op update (edited subset equal to the unmodified
target, nothing marked, no field changes) over a set whose single matching
record stores 總價 = 999 while 數量 * 單價 = 6 rewrites that total, so the
result is not a permutation of S. -/
theorem c2_counterexample :
    ¬ List.Perm (submit_update [rBad] "A" "c" 2025 none [eBad]) [rBad] := by
  rw [show submit_update [rBad] "A" "c" 2025 none [eBad] =
      [recompute "A" "c" eBad] from rfl]
  intro hperm
  have heq : recompute "A" "c" eBad = rBad := by
    have h := List.singleton_perm.mp hperm
    injection h
  have htot : (recompute "A" "c" eBad).total = rBad.total := by rw [heq]
  have hx : (2 : ℚ) * 3 = 999 := by
    simpa [recompute, eBad, rBad, rA] using htot
  norm_num at hx

/-- C2 (amended): when the edited subset is the unmodified target (row for
row), nothing is marked for deletion, and every target row already satisfies
the persistence invariant 總價 = 數量 * 單價, the update operation returns a
permutation of S. -/
theorem c2_noop_update_perm (full : List Record) (P C : String) (Y : Nat)
    (M : Option Nat) (edited : List EditedRow)
    (hEd : edited.map (fun e => e.row) =
      full.filter (fun r => matchesSel P C Y M r))
    (_hNoDel : ∀ e ∈ edited, e.marked = false)
    (hInv : ∀ e ∈ edited, e.row.total = e.row.qty * e.row.price) :
    List.Perm (submit_update full P C Y M edited) full := by
  have hmap : edited.map (recompute P C) = edited.map (fun e => e.row) := by
    apply List.map_congr_left
    intro e he
    have hmem : e.row ∈ full.filter (fun r => matchesSel P C Y M r) := by
      rw [← hEd]
      exact List.mem_map_of_mem _ he
    have hm := (List.mem_filter.mp hmem).2
    have ht := hInv e he
    unfold matchesSel at hm
    simp only [Bool.and_eq_true, beq_iff_eq] at hm
    have hproj : e.row.proj = P := hm.1.1.1
    have hcat : e.row.cat = C := hm.1.1.2
    obtain ⟨r, mrk, wd⟩ := e
    obtain ⟨d, pj, ct, it, un, q, pr, tot, loc, hd, vo, inv, nt⟩ := r
    dsimp only at hproj hcat ht
    subst hproj
    subst hcat
    subst ht
    rfl
  rw [show submit_update full P C Y M edited =
      full.filter (fun r => !(matchesSel P C Y M r)) ++
        edited.map (recompute P C) from rfl, hmap, hEd]
  exact List.perm_append_comm.trans
    (List.filter_append_perm (fun r => matchesSel P C Y M r) full)

/-- C2 witness: a concrete no-op update over a two-record set with a valid
stored total permutes the set. -/
theorem c2_witness :
    List.Perm (submit_update [rA, rB] "A" "c" 2025 none [eKeep]) [rA, rB] :=
  c2_noop_update_perm [rA, rB] "A" "c" 2025 none [eKeep] rfl
    (by intro e he; simp at he; rw [he]; rfl)
    (by intro e he; simp at he; rw [he]; norm_num [eKeep, rA])

/-- Concrete settings used by the rename witness: one project A with its maps. -/
def s0 : AppSettings :=
  { projects := ["A"], items := [("A", [])], locations := [("A", [])],
    cat_config := [("A", DEFAULT_CAT_CONFIG)], item_details := [] }

/-- Expected settings after renaming A to NewA in s0. -/
def s0ren : AppSettings :=
  { projects := ["NewA"], items := [("NewA", [])], locations := [("NewA", [])],
    cat_config := [("NewA", DEFAULT_CAT_CONFIG)], item_details := [] }

/-- Expected ledger after renaming A to NewA under [rA]. -/
def dfren : List Record := [{ rA with proj := "NewA" }]

/-- C6: when the project rename handler completes its propagation, every
record whose 專案 was the old name has been rewritten, so zero records of the
resulting ledger carry the old name, the settings projects list no longer
contains the old name, and the ledger is a whole-table rewrite of the original
(every record mapped, none dropped). -/
theorem c6_rename_propagation (s : AppSettings) (df : List Record)
    (old new : String) (s2 : AppSettings) (df2 : List Record)
    (h : form_ren_project s df old new = some (s2, df2)) :
    (∀ r ∈ df2, r.proj ≠ old) ∧ old ∉ s2.projects ∧
      df2 = df.map (fun r => if r.proj = old then { r with proj := new } else r) := by
  unfold form_ren_project at h
  by_cases hg : new = "" ∨ new = old
  · rw [if_pos hg] at h
    exact absurd h (by simp)
  · rw [if_neg hg] at h
    have hne : new ≠ old := fun hc => hg (Or.inr hc)
    split at h
    · simp only [Option.some.injEq, Prod.mk.injEq] at h
      obtain ⟨hs, hdf⟩ := h
      subst hs
      subst hdf
      refine ⟨?_, ?_, rfl⟩
      · intro r hr
        rcases List.mem_map.mp hr with ⟨r0, _, rfl⟩
        by_cases hp : r0.proj = old
        · simp [hp, hne]
        · simp [hp]
      · intro hmem
        rcases List.mem_map.mp hmem with ⟨p, _, hp⟩
        by_cases hpo : p = old
        · rw [if_pos hpo] at hp
          exact hne hp
        · rw [if_neg hpo] at hp
          exact hpo hp
    · exact absurd h (by simp)

/-- C6 witness: a concrete rename of project A to NewA leaves no trace of the
old name in the projects list. -/
theorem c6_witness : "A" ∉ s0ren.projects :=
  (c6_rename_propagation s0 [rA] "A" "NewA" s0ren dfren (by decide)).2.1

/-- C7 counterexample: a failing local-mode settings write escapes as an
unhandled exception (the local branch of save_settings has no try/except), and
a failing cloud-mode settings read is caught but produces no visible
notification (except: pass), so backing-store errors are neither all caught
nor all converted to visible notifications. -/
theorem c7_counterexample :
    (save_settingsOp Mode.localMode true).result = Except.error "IOError" ∧
      (load_settingsOp Mode.cloud true (some defaultBlob)).notice = none :=
  ⟨rfl, rfl⟩

/-- C7 (amended): cloud-mode backing-store errors are caught at the point of
the call - the data write paths surface a visible non-crashing message, the
settings read falls back to the normalized defaults and the settings write is
swallowed silently - while a failing local-mode settings write escapes as an
unhandled exception; no operation makes additional backing-store calls on
failure (no automatic retries). -/
theorem c7_error_propagation (fails : Bool) (stored : Option SettingsBlob)
    (mode : Mode) :
    (∃ v, (load_settingsOp Mode.cloud fails stored).result = Except.ok v) ∧
    (load_settingsOp Mode.cloud true stored).result =
      Except.ok (normalizeSettings defaultBlob) ∧
    (save_settingsOp Mode.cloud fails).result = Except.ok () ∧
    (save_settingsOp Mode.cloud fails).notice = none ∧
    (∃ b2, (save_dataframeOp mode fails).result = Except.ok b2) ∧
    (fails = true → (save_dataframeOp mode fails).notice.isSome = true) ∧
    (∃ b3, (append_recordOp mode fails).result = Except.ok b3) ∧
    (fails = true → (append_recordOp mode fails).notice.isSome = true) ∧
    (save_settingsOp Mode.localMode true).result = Except.error "IOError" ∧
    (load_settingsOp mode fails stored).storeCalls =
      (load_settingsOp mode false stored).storeCalls ∧
    (save_settingsOp mode fails).storeCalls =
      (save_settingsOp mode false).storeCalls ∧
    (save_dataframeOp mode fails).storeCalls =
      (save_dataframeOp mode false).storeCalls ∧
    (append_recordOp mode fails).storeCalls =
      (append_recordOp mode false).storeCalls := by
  cases fails <;> cases mode <;> cases stored <;>
    simp [load_settingsOp, save_settingsOp, save_dataframeOp, append_recordOp]

/-- C7 witness: a failing whole-table write in local mode is caught and shows
a visible message. -/
theorem c7_witness :
    (save_dataframeOp Mode.localMode true).notice.isSome = true :=
  (c7_error_propagation true none Mode.localMode).2.2.2.2.2.1 rfl

/-- A reference found in the allocation dict points into the allocated range
and its index names the looked-up project. -/
theorem refLookup_alloc (p : String) :
    ∀ (ps : List String) (base i : Nat),
      refLookup (allocRefs ps base) p = some i →
      base ≤ i ∧ i - base < ps.length ∧ ps[i - base]? = some p := by
  intro ps
  induction ps with
  | nil => intro base i h; simp [allocRefs, refLookup] at h
  | cons p0 rest ih =>
    intro base i h
    simp only [allocRefs, refLookup] at h
    cases hrec : refLookup (allocRefs rest (base + 1)) p with
    | some w =>
      rw [hrec] at h
      have hwi : w = i := by injection h
      subst hwi
      obtain ⟨h1, h2, h3⟩ := ih (base + 1) w hrec
      have hib : w - base = (w - (base + 1)) + 1 := by omega
      refine ⟨by omega, by simp; omega, ?_⟩
      rw [hib, List.getElem?_cons_succ]
      exact h3
    | none =>
      rw [hrec] at h
      by_cases hp : p0 = p
      · rw [if_pos hp] at h
        have hbi : base = i := by injection h
        subst hbi
        refine ⟨Nat.le_refl _, by simp, ?_⟩
        rw [Nat.sub_self, List.getElem?_cons_zero]
        rw [hp]
      · rw [if_neg hp] at h
        exact absurd h (by simp)

/-- Every project of the list receives a reference during allocation. -/
theorem refLookup_alloc_isSome (p : String) :
    ∀ (ps : List String) (base : Nat), p ∈ ps →
      (refLookup (allocRefs ps base) p).isSome = true := by
  intro ps
  induction ps with
  | nil => intro base h; simp at h
  | cons p0 rest ih =>
    intro base hmem
    simp only [allocRefs, refLookup]
    cases hrec : refLookup (allocRefs rest (base + 1)) p with
    | some w => simp
    | none =>
      rcases List.mem_cons.mp hmem with h | h
      · subst h
        simp
      · have := ih (base + 1) h
        rw [hrec] at this
        simp at this

/-- C8: migrating an old flat cat_config list gives every project of the
projects list an independent deep copy of the list: the copy each project sees
equals the original flat list, and mutating the list object of one project
changes that project alone - any other project still sees the original list. -/
theorem c8_migration_deepcopy (projects : List String) (old newL : List CatEntry)
    (p q : String) (hp : p ∈ projects) (hq : q ∈ projects) (hpq : p ≠ q) :
    ccValue (migrateFlatHeap projects old) p = some old ∧
    ccValue (ccMutate (migrateFlatHeap projects old) p newL) p = some newL ∧
    ccValue (ccMutate (migrateFlatHeap projects old) p newL) q = some old := by
  obtain ⟨i, hi⟩ :=
    Option.isSome_iff_exists.mp (refLookup_alloc_isSome p projects 0 hp)
  obtain ⟨j, hj⟩ :=
    Option.isSome_iff_exists.mp (refLookup_alloc_isSome q projects 0 hq)
  obtain ⟨_, hilt, hgi⟩ := refLookup_alloc p projects 0 i hi
  obtain ⟨_, hjlt, hgj⟩ := refLookup_alloc q projects 0 j hj
  rw [Nat.sub_zero] at hilt hgi
  rw [Nat.sub_zero] at hjlt hgj
  have hij : i ≠ j := by
    intro he
    rw [he, hgj] at hgi
    have hqp : q = p := by injection hgi
    exact hpq hqp.symm
  have hmut : ccMutate (migrateFlatHeap projects old) p newL =
      { refs := allocRefs projects 0,
        heap := (List.replicate projects.length old).set i newL } := by
    simp only [ccMutate, migrateFlatHeap, hi]
  refine ⟨?_, ?_, ?_⟩
  · show (refLookup (allocRefs projects 0) p).bind
      (fun r => (List.replicate projects.length old)[r]?) = some old
    rw [hi]
    simpa using List.getElem?_replicate_of_lt hilt
  · rw [hmut]
    show (refLookup (allocRefs projects 0) p).bind
      (fun r => ((List.replicate projects.length old).set i newL)[r]?) = some newL
    rw [hi]
    have hlen : i < (List.replicate projects.length old).length := by
      simpa using hilt
    simp [List.getElem?_set_self', List.getElem?_replicate_of_lt hilt]
  · rw [hmut]
    show (refLookup (allocRefs projects 0) q).bind
      (fun r => ((List.replicate projects.length old).set i newL)[r]?) = some old
    rw [hj]
    simp [List.getElem?_set_ne hij, List.getElem?_replicate_of_lt hjlt]

/-- C8 witness: with two concrete projects, mutating the copy of the first
leaves the copy of the second equal to the original flat list. -/
theorem c8_witness :
    ccValue (ccMutate (migrateFlatHeap ["甲", "乙"] DEFAULT_CAT_CONFIG) "甲" [])
      "乙" = some DEFAULT_CAT_CONFIG :=
  (c8_migration_deepcopy ["甲", "乙"] DEFAULT_CAT_CONFIG [] "甲" "乙"
    (by simp) (by simp) (by decide)).2.2

/-- Inserting a key makes it found with its value. -/
theorem dget_dinsert_self {α : Type} (m : List (String × α)) (k : String)
    (v : α) : dget (dinsert m k v) k = some v := by
  induction m with
  | nil => simp [dinsert, dget]
  | cons e rest ih =>
    obtain ⟨k0, v0⟩ := e
    by_cases hk : k0 = k
    · simp [dinsert, hk, dget]
    · simp [dinsert, hk, dget, ih]

/-- Inserting one key does not change the lookup of another. -/
theorem dget_dinsert_ne {α : Type} (m : List (String × α)) (k k2 : String)
    (v : α) (h : k ≠ k2) : dget (dinsert m k v) k2 = dget m k2 := by
  induction m with
  | nil => simp [dinsert, dget, h]
  | cons e rest ih =>
    obtain ⟨k0, v0⟩ := e
    by_cases hk : k0 = k
    · subst hk
      simp [dinsert, dget, h]
    · simp [dinsert, hk, dget, ih]

/-- Folding constant-value insertions over a key list: any key of the list,
and any key already mapped to that value, is mapped to the value afterwards. -/
theorem dget_constFold {α : Type} (v : α) (p : String) :
    ∀ (ps : List String) (m : List (String × α)),
      (p ∈ ps ∨ dget m p = some v) →
      dget (ps.foldl (fun m0 q => dinsert m0 q v) m) p = some v := by
  intro ps
  induction ps with
  | nil =>
    intro m h
    rcases h with h | h
    · simp at h
    · simpa using h
  | cons p0 rest ih =>
    intro m h
    rw [List.foldl_cons]
    apply ih
    by_cases hp : p = p0
    · subst hp
      rcases h with h | h
      · rcases List.mem_cons.mp h with h0 | h0
        · right
          exact dget_dinsert_self m p v
        · exact Or.inl h0
      · right
        exact dget_dinsert_self m p v
    · rcases h with h | h
      · rcases List.mem_cons.mp h with h0 | h0
        · exact absurd h0.symm (fun hh => hp hh.symm)
        · exact Or.inl h0
      · right
        rw [dget_dinsert_ne m p0 p v (fun hh => hp hh.symm)]
        exact h

/-- Folding the fill-missing step over a key list preserves and establishes
presence: any key of the list, and any key already present, is present
afterwards. -/
theorem dget_fillFold_isSome (p : String) :
    ∀ (ps : List String) (m : List (String × List CatEntry)),
      (p ∈ ps ∨ (dget m p).isSome = true) →
      (dget (ps.foldl
        (fun m0 q =>
          if (dget m0 q).isSome then m0 else dinsert m0 q DEFAULT_CAT_CONFIG) m)
        p).isSome = true := by
  intro ps
  induction ps with
  | nil =>
    intro m h
    rcases h with h | h
    · simp at h
    · simpa using h
  | cons p0 rest ih =>
    intro m h
    rw [List.foldl_cons]
    apply ih
    by_cases hcur : (dget m p0).isSome
    · rw [if_pos hcur]
      rcases h with h | h
      · rcases List.mem_cons.mp h with h0 | h0
        · right
          rw [h0]
          exact hcur
        · exact Or.inl h0
      · exact Or.inr h
    · rw [if_neg hcur]
      by_cases hp : p = p0
      · subst hp
        right
        rw [dget_dinsert_self m p DEFAULT_CAT_CONFIG]
        rfl
      · rcases h with h | h
        · rcases List.mem_cons.mp h with h0 | h0
          · exact absurd h0 hp
          · exact Or.inl h0
        · right
          rw [dget_dinsert_ne m p0 p DEFAULT_CAT_CONFIG (fun hh => hp hh.symm)]
          exact h

/-- Folding the fill-missing step over a key list gives a key of the list that
was absent from the dict exactly the default value, and never disturbs an
entry already holding the default value. -/
theorem dget_fillFold_missing (p : String) :
    ∀ (ps : List String) (m : List (String × List CatEntry)),
      (dget m p = some DEFAULT_CAT_CONFIG ∨ (p ∈ ps ∧ dget m p = none)) →
      dget (ps.foldl
        (fun m0 q =>
          if (dget m0 q).isSome then m0 else dinsert m0 q DEFAULT_CAT_CONFIG) m)
        p = some DEFAULT_CAT_CONFIG := by
  intro ps
  induction ps with
  | nil =>
    intro m h
    rcases h with h | h
    · simpa using h
    · exact absurd h.1 (by simp)
  | cons p0 rest ih =>
    intro m h
    rw [List.foldl_cons]
    apply ih
    by_cases hcur : (dget m p0).isSome
    · rw [if_pos hcur]
      rcases h with h | ⟨hmem, hnone⟩
      · exact Or.inl h
      · by_cases hp : p = p0
        · subst hp
          rw [hnone] at hcur
          simp at hcur
        · rcases List.mem_cons.mp hmem with h0 | h0
          · exact absurd h0 hp
          · exact Or.inr ⟨h0, hnone⟩
    · rw [if_neg hcur]
      by_cases hp : p = p0
      · subst hp
        exact Or.inl (dget_dinsert_self m p DEFAULT_CAT_CONFIG)
      · rcases h with h | ⟨hmem, hnone⟩
        · left
          rw [dget_dinsert_ne m p0 p DEFAULT_CAT_CONFIG (fun hh => hp hh.symm)]
          exact h
        · rcases List.mem_cons.mp hmem with h0 | h0
          · exact absurd h0 hp
          · right
            refine ⟨h0, ?_⟩
            rw [dget_dinsert_ne m p0 p DEFAULT_CAT_CONFIG (fun hh => hp hh.symm)]
            exact hnone

/-- C10: whatever the shape of the incoming settings blob, the loaded settings
always carry a projects list, a dict-shaped cat_config with an entry for every
project of the projects list, a deep copy of DEFAULT_CAT_CONFIG for every
project missing from a dict-shaped cat_config and for every project when
cat_config was neither a list nor a dict, and an item_details value. -/
theorem c10_load_settings_shape (b : SettingsBlob) :
    (normalizeSettings b).projects = some (projListOf b) ∧
    isDictCC (normalizeSettings b).cat_config = true ∧
    (∀ p, p ∈ projListOf b →
      (ccLookup (normalizeSettings b).cat_config p).isSome = true) ∧
    (∀ m0, b.cat_config = CatCfgVal.perProj m0 →
      ∀ p, p ∈ projListOf b → dget m0 p = none →
        ccLookup (normalizeSettings b).cat_config p = some DEFAULT_CAT_CONFIG) ∧
    (b.cat_config = CatCfgVal.other →
      ∀ p, p ∈ projListOf b →
        ccLookup (normalizeSettings b).cat_config p = some DEFAULT_CAT_CONFIG) ∧
    ((normalizeSettings b).item_details).isSome = true := by
  obtain ⟨bp, bc, bd⟩ := b
  cases bc with
  | flat l =>
    refine ⟨rfl, rfl, ?_, ?_, ?_, by cases bd <;> rfl⟩
    · intro p hp
      show (dget ((projListOf ⟨bp, CatCfgVal.flat l, bd⟩).foldl
        (fun m0 q =>
          if (dget m0 q).isSome then m0 else dinsert m0 q DEFAULT_CAT_CONFIG)
        ((projListOf ⟨bp, CatCfgVal.flat l, bd⟩).foldl
          (fun m q => dinsert m q l) [])) p).isSome = true
      apply dget_fillFold_isSome
      exact Or.inl hp
    · intro m0 hc
      exact absurd hc (by simp)
    · intro hc
      exact absurd hc (by simp)
  | perProj m =>
    refine ⟨rfl, rfl, ?_, ?_, ?_, by cases bd <;> rfl⟩
    · intro p hp
      show (dget ((projListOf ⟨bp, CatCfgVal.perProj m, bd⟩).foldl
        (fun m0 q =>
          if (dget m0 q).isSome then m0 else dinsert m0 q DEFAULT_CAT_CONFIG)
        m) p).isSome = true
      apply dget_fillFold_isSome
      exact Or.inl hp
    · intro m0 hc p hp hnone
      have hm : m = m0 := by injection hc
      subst hm
      show dget ((projListOf ⟨bp, CatCfgVal.perProj m, bd⟩).foldl
        (fun m0 q =>
          if (dget m0 q).isSome then m0 else dinsert m0 q DEFAULT_CAT_CONFIG)
        m) p = some DEFAULT_CAT_CONFIG
      exact dget_fillFold_missing p _ m (Or.inr ⟨hp, hnone⟩)
    · intro hc
      exact absurd hc (by simp)
  | other =>
    refine ⟨rfl, rfl, ?_, ?_, ?_, by cases bd <;> rfl⟩
    · intro p hp
      show (dget ((projListOf ⟨bp, CatCfgVal.other, bd⟩).foldl
        (fun m0 q => dinsert m0 q DEFAULT_CAT_CONFIG) []) p).isSome = true
      rw [dget_constFold DEFAULT_CAT_CONFIG p _ [] (Or.inl hp)]
      rfl
    · intro m0 hc
      exact absurd hc (by simp)
    · intro _ p hp
      show dget ((projListOf ⟨bp, CatCfgVal.other, bd⟩).foldl
        (fun m0 q => dinsert m0 q DEFAULT_CAT_CONFIG) []) p =
        some DEFAULT_CAT_CONFIG
      exact dget_constFold DEFAULT_CAT_CONFIG p _ [] (Or.inl hp)

/-- C10 witness: loading a dict-shaped cat_config that lacks an entry for the
second of the two listed projects fills that project with the default
category configuration. -/
theorem c10_witness :
    ccLookup (normalizeSettings
        ⟨some ["甲", "乙"], CatCfgVal.perProj [("甲", [])], none⟩).cat_config
      "乙" = some DEFAULT_CAT_CONFIG :=
  (c10_load_settings_shape
      ⟨some ["甲", "乙"], CatCfgVal.perProj [("甲", [])], none⟩).2.2.2.1
    [("甲", [])] rfl "乙" (by simp [projListOf]) (by decide)
